import Mathlib

/-!
# Verification of the competition scoring and reward library

Shallow embedding of `src/lib/scoring.py`.

Modelling conventions:

* Python `Decimal` (exact monetary values) is embedded as `ℚ`.
  `Decimal.quantize(Decimal("0.0000000001"), rounding=ROUND_DOWN)` is truncation
  toward zero at 10 decimal digits (`quantizeDown10`); the trailing
  `.normalize()` only strips trailing zeros of the printed form and is the
  identity on the rational value, so it does not appear in the embedding.
* Python `float` (approximate statistical values) is idealised as exact `ℚ`
  arithmetic; a `float` that is NaN ("missing") is `Option.none`, so lists of
  possibly-missing floats are `List (Option ℚ)`.  The two places where the
  source takes a square root (`np.nanstd`, RMSE) produce `ℝ` via `Real.sqrt`.
* Python exceptions are `Except ScoringErr`: `LookupError` raised by
  `Scorer.get`, the `decimal` module's arithmetic traps (`DivisionByZero` /
  `InvalidOperation`), and sklearn's `ValueError` on malformed input.
* `scipy.stats.mstats.rankdata` on a masked array assigns to each unmasked
  element the average of the positions its tie-group occupies (1-based), and
  rank 0 to masked elements; the source converts rank 0 to NaN.  `avgRank`
  is the standard closed form of that average rank.
-/

namespace Scoring

/-- Exceptions a scoring call can raise: `LookupError` from the version
resolver, an arithmetic trap from the `decimal` module (`DivisionByZero` when
the factor total is zero, `InvalidOperation` when a `Decimal` NaN is compared),
and sklearn's `ValueError` for malformed error-computation input. -/
inductive ScoringErr where
  | lookup
  | arithmeticError
  | valueError
  deriving DecidableEq

/-- The concrete `Scorer` implementations; the source has the single
`Scorer1`. -/
inductive ScorerVersion where
  | scorer1
  deriving DecidableEq

/-- `Decimal.quantize(Decimal("0.0000000001"), rounding=ROUND_DOWN)`:
truncation toward zero at 10 decimal digits. -/
def quantizeDown10 (x : ℚ) : ℚ :=
  if 0 ≤ x then (⌊x * 10 ^ 10⌋ : ℚ) / 10 ^ 10
  else -((⌊(-x) * 10 ^ 10⌋ : ℚ) / 10 ^ 10)

/-- Average rank of `x` within the list `l` of defined (unmasked) values,
1-based, ties averaged: `scipy.stats.mstats.rankdata` semantics.  The value
is (number of entries below `x`) + (size of the tie group + 1)/2. -/
def avgRank (x : ℚ) (l : List ℚ) : ℚ :=
  (l.countP (fun y => decide (y < x)) : ℚ) +
    ((l.countP (fun y => decide (y = x)) : ℚ) + 1) / 2

namespace Scorer1

/-- `Scorer1.STDDEV_PENALTY = 0.1`. -/
def STDDEV_PENALTY : ℚ := 1 / 10

/-- `Scorer1.SKIP_PENALTY = 0.1`. -/
def SKIP_PENALTY : ℚ := 1 / 10

/-- `Scorer1.TOTAL_WEEKLY_POOL = Decimal(200000)`. -/
def TOTAL_WEEKLY_POOL : ℚ := 200000

/-- `Scorer1.UNIT_WEEKLY_POOL = Decimal(200)`. -/
def UNIT_WEEKLY_POOL : ℚ := 200

/-- `Scorer1.CHALLENGE_REWARD_PERC = Decimal("0.2")`. -/
def CHALLENGE_REWARD_PERC : ℚ := 2 / 10

/-- `Scorer1.COMPETITION_REWARD_PERC = Decimal("0.6")`. -/
def COMPETITION_REWARD_PERC : ℚ := 6 / 10

/-- `Scorer1.STAKE_REWARD_PERC = Decimal("0.2")`. -/
def STAKE_REWARD_PERC : ℚ := 2 / 10

/-- `Scorer1.compute_challenge_error`: RMSE between predictions and true
values (`mean_squared_error(..., squared=False)`).  sklearn raises
`ValueError` when the two arrays have different lengths or are empty. -/
noncomputable def compute_challenge_error (predictions assets_values : List ℚ) :
    Except ScoringErr ℝ :=
  if predictions.length = assets_values.length ∧ predictions ≠ [] then
    .ok (Real.sqrt
      (((List.zipWith (fun p v => (p - v) ^ 2) predictions assets_values).sum /
        (predictions.length : ℚ) : ℚ) : ℝ))
  else .error .valueError

/-- `Scorer1.compute_challenge_scores`.  `n` counts non-NaN errors; if `n = 0`
the result is `[]`.  Otherwise masked (NaN) entries get rank 0, which the
source converts to NaN, and every entry is mapped through
`(n - r) / (n - 1)` in float arithmetic: a NaN rank stays NaN, and when
`n = 1` the lone defined entry has rank 1 so the division is the float
`0.0 / 0.0 = NaN` (numpy emits a warning, not an exception). -/
def compute_challenge_scores (participants_errors : List (Option ℚ)) :
    List (Option ℚ) :=
  let defined := participants_errors.filterMap id
  if defined.length = 0 then []
  else
    participants_errors.map (fun e =>
      match e with
      | none => none
      | some x =>
          if defined.length = 1 then none
          else some (((defined.length : ℚ) - avgRank x defined) /
            ((defined.length : ℚ) - 1)))

/-- `challenge_scores[-4:]`: the trailing window of (at most) the last 4
entries. -/
def last_window (challenge_scores : List (Option ℚ)) : List (Option ℚ) :=
  challenge_scores.drop (challenge_scores.length - 4)

/-- `num_skips = (4 - len(scores)) + #{NaN entries in the window}`. -/
def num_skips (challenge_scores : List (Option ℚ)) : ℕ :=
  (4 - (last_window challenge_scores).length) +
    (last_window challenge_scores).countP (fun s => s.isNone)

/-- The non-NaN scores of the trailing window (the values `np.nanmean` and
`np.nanstd` aggregate over). -/
def window_defined (challenge_scores : List (Option ℚ)) : List ℚ :=
  (last_window challenge_scores).filterMap id

/-- `np.nanmean` on the already-filtered list: plain mean. -/
def nanmean (l : List ℚ) : ℚ := l.sum / (l.length : ℚ)

/-- Population variance (square of `np.nanstd`, `ddof = 0`) on the
already-filtered list. -/
def nanvariance (l : List ℚ) : ℚ :=
  (l.map (fun x => (x - nanmean l) ^ 2)).sum / (l.length : ℚ)

/-- `Scorer1.compute_competition_score`: trailing window of 4, skip count,
NaN when every slot is a skip, otherwise
`max(nanmean - (0.1 * 2 * nanstd + 0.1 * num_skips / 3), 0)`. -/
noncomputable def compute_competition_score (challenge_scores : List (Option ℚ)) :
    Option ℝ :=
  if num_skips challenge_scores = 4 then none
  else
    some (max (((nanmean (window_defined challenge_scores) : ℚ) : ℝ) -
      (((STDDEV_PENALTY : ℚ) : ℝ) * 2 *
          Real.sqrt ((nanvariance (window_defined challenge_scores) : ℚ) : ℝ) +
        ((SKIP_PENALTY : ℚ) : ℝ) * (num_skips challenge_scores : ℝ) / 3)) 0)

/-- `Scorer1.__distribute`: proportional split of `pool` along `factors`,
each share truncated toward zero at 10 decimal digits.  When the factor total
is zero and at least one division is attempted, the `decimal` module raises
(`DivisionByZero`, or `InvalidOperation` for `0/0`); on an empty factor list
no division happens and the result is `[]`. -/
def distribute (factors : List ℚ) (pool : ℚ) : Except ScoringErr (List ℚ) :=
  if factors.sum = 0 ∧ factors ≠ [] then .error .arithmeticError
  else .ok (factors.map (fun factor => quantizeDown10 (pool * factor / factors.sum)))

/-- Challenge-reward factors: NaN scores are first replaced by `0`, then
`factor = max(score - 0.25, 0)`. -/
def challenge_factors (challenge_scores : List (Option ℚ)) : List ℚ :=
  challenge_scores.map (fun score => max (score.getD 0 - 1 / 4) 0)

/-- `Scorer1.compute_challenge_rewards`. -/
def compute_challenge_rewards (challenge_scores : List (Option ℚ))
    (challenge_pool : ℚ) : Except ScoringErr (List ℚ) :=
  distribute (challenge_factors challenge_scores) challenge_pool

/-- Normalized ranks for competition rewards: NaN scores get rank NaN which
the source replaces by `0`; defined scores get `(r - 1) / (n - 1)` with the
same tie-averaged rank as challenge scoring. -/
def competition_norm_ranks (competition_scores : List (Option ℚ)) : List ℚ :=
  let defined := competition_scores.filterMap id
  competition_scores.map (fun s =>
    match s with
    | none => 0
    | some x => (avgRank x defined - 1) / ((defined.length : ℚ) - 1))

/-- Competition-reward factors: `max(normalized_rank - 0.5, 0)`. -/
def competition_factors (competition_scores : List (Option ℚ)) : List ℚ :=
  (competition_norm_ranks competition_scores).map (fun r => max (r - 1 / 2) 0)

/-- `Scorer1.compute_competition_rewards`.  With `n = 0` (every score NaN)
the source returns `[0] * len(competition_scores)` without distributing.
With `n = 1` the defined entry's normalized rank is the float `0.0 / 0.0
= NaN`, `Decimal(NaN) - Decimal("0.5")` is a `Decimal` NaN, and Python's
`max` then orders it against `Decimal(0)`, which raises `InvalidOperation`. -/
def compute_competition_rewards (competition_scores : List (Option ℚ))
    (competition_pool : ℚ) : Except ScoringErr (List ℚ) :=
  let defined := competition_scores.filterMap id
  if defined.length = 0 then .ok (List.replicate competition_scores.length 0)
  else if defined.length = 1 then .error .arithmeticError
  else distribute (competition_factors competition_scores) competition_pool

/-- `Scorer1.compute_stake_rewards`: the stakes are the distribution factors. -/
def compute_stake_rewards (stakes : List ℚ) (stake_pool : ℚ) :
    Except ScoringErr (List ℚ) :=
  distribute stakes stake_pool

/-- `Scorer1.compute_challenge_pool`. -/
def compute_challenge_pool (num_predictors : ℕ) : ℚ :=
  UNIT_WEEKLY_POOL * CHALLENGE_REWARD_PERC * (num_predictors : ℚ)

/-- `Scorer1.compute_competition_pool`. -/
def compute_competition_pool (num_predictors : ℕ) : ℚ :=
  UNIT_WEEKLY_POOL * COMPETITION_REWARD_PERC * (num_predictors : ℚ)

/-- `Scorer1.compute_stake_pool`. -/
def compute_stake_pool (num_stakers : ℕ) : ℚ :=
  UNIT_WEEKLY_POOL * STAKE_REWARD_PERC * (num_stakers : ℚ)

/-- `Scorer1.compute_pool_surplus`. -/
def compute_pool_surplus (num_predictors num_stakers : ℕ) : ℚ :=
  TOTAL_WEEKLY_POOL - (compute_challenge_pool num_predictors +
    compute_competition_pool num_predictors + compute_stake_pool num_stakers)

end Scorer1

/-- `Scorer.get`: the version resolver.  Raises `LookupError` on a negative
challenge number, otherwise returns the single implemented version. -/
def Scorer.get (challenge_number : ℤ) : Except ScoringErr ScorerVersion :=
  if challenge_number < 0 then .error .lookup else .ok .scorer1

/-- `validate_prediction`: set equality of submitted and required assets,
then a length check (one entry per asset), then no NaN values. -/
def validate_prediction (assets : List String)
    (predictions : List (String × Option ℚ)) : Bool :=
  let predicted_assets := (predictions.map Prod.fst).toFinset
  if assets.toFinset ≠ predicted_assets then false
  else if assets.length ≠ predictions.length then false
  else predictions.all (fun p => p.2.isSome)

/-- Facade `compute_challenge_error`: resolve the scorer, then delegate. -/
noncomputable def compute_challenge_error (challenge_number : ℤ)
    (predictions assets_values : List ℚ) : Except ScoringErr ℝ :=
  match Scorer.get challenge_number with
  | .error e => .error e
  | .ok .scorer1 => Scorer1.compute_challenge_error predictions assets_values

/-- Facade `compute_challenge_scores`. -/
def compute_challenge_scores (challenge_number : ℤ)
    (participants_errors : List (Option ℚ)) :
    Except ScoringErr (List (Option ℚ)) :=
  match Scorer.get challenge_number with
  | .error e => .error e
  | .ok .scorer1 => .ok (Scorer1.compute_challenge_scores participants_errors)

/-- Facade `compute_competition_score`. -/
noncomputable def compute_competition_score (challenge_number : ℤ)
    (challenge_scores : List (Option ℚ)) : Except ScoringErr (Option ℝ) :=
  match Scorer.get challenge_number with
  | .error e => .error e
  | .ok .scorer1 => .ok (Scorer1.compute_competition_score challenge_scores)

/-- Facade `compute_challenge_rewards`. -/
def compute_challenge_rewards (challenge_number : ℤ)
    (challenge_scores : List (Option ℚ)) (challenge_pool : ℚ) :
    Except ScoringErr (List ℚ) :=
  match Scorer.get challenge_number with
  | .error e => .error e
  | .ok .scorer1 => Scorer1.compute_challenge_rewards challenge_scores challenge_pool

/-- Facade `compute_competition_rewards`. -/
def compute_competition_rewards (challenge_number : ℤ)
    (competition_scores : List (Option ℚ)) (competition_pool : ℚ) :
    Except ScoringErr (List ℚ) :=
  match Scorer.get challenge_number with
  | .error e => .error e
  | .ok .scorer1 =>
      Scorer1.compute_competition_rewards competition_scores competition_pool

/-- Facade `compute_stake_rewards`. -/
def compute_stake_rewards (challenge_number : ℤ) (stakes : List ℚ)
    (stake_pool : ℚ) : Except ScoringErr (List ℚ) :=
  match Scorer.get challenge_number with
  | .error e => .error e
  | .ok .scorer1 => Scorer1.compute_stake_rewards stakes stake_pool

/-- Facade `compute_challenge_pool`. -/
def compute_challenge_pool (challenge_number : ℤ) (num_predictors : ℕ) :
    Except ScoringErr ℚ :=
  match Scorer.get challenge_number with
  | .error e => .error e
  | .ok .scorer1 => .ok (Scorer1.compute_challenge_pool num_predictors)

/-- Facade `compute_competition_pool`. -/
def compute_competition_pool (challenge_number : ℤ) (num_predictors : ℕ) :
    Except ScoringErr ℚ :=
  match Scorer.get challenge_number with
  | .error e => .error e
  | .ok .scorer1 => .ok (Scorer1.compute_competition_pool num_predictors)

/-- Facade `compute_stake_pool`. -/
def compute_stake_pool (challenge_number : ℤ) (num_stakers : ℕ) :
    Except ScoringErr ℚ :=
  match Scorer.get challenge_number with
  | .error e => .error e
  | .ok .scorer1 => .ok (Scorer1.compute_stake_pool num_stakers)

/-- Facade `compute_pool_surplus`. -/
def compute_pool_surplus (challenge_number : ℤ)
    (num_predictors num_stakers : ℕ) : Except ScoringErr ℚ :=
  match Scorer.get challenge_number with
  | .error e => .error e
  | .ok .scorer1 => .ok (Scorer1.compute_pool_surplus num_predictors num_stakers)

/-! ## Supporting lemmas -/

theorem quantizeDown10_nonneg {x : ℚ} (hx : 0 ≤ x) : 0 ≤ quantizeDown10 x := by
  unfold quantizeDown10
  rw [if_pos hx]
  have h : (0 : ℤ) ≤ ⌊x * 10 ^ 10⌋ := Int.floor_nonneg.mpr (by positivity)
  positivity

theorem quantizeDown10_le {x : ℚ} (hx : 0 ≤ x) : quantizeDown10 x ≤ x := by
  unfold quantizeDown10
  rw [if_pos hx]
  rw [div_le_iff₀ (by norm_num : (0 : ℚ) < 10 ^ 10)]
  exact Int.floor_le (x * 10 ^ 10)

theorem sub_quantizeDown10_le {x : ℚ} (hx : 0 ≤ x) :
    x - quantizeDown10 x ≤ 1 / 10 ^ 10 := by
  unfold quantizeDown10
  rw [if_pos hx]
  have h := Int.lt_floor_add_one (x * 10 ^ 10)
  rw [sub_le_iff_le_add, div_add_div_same, le_div_iff₀ (by norm_num : (0 : ℚ) < 10 ^ 10)]
  linarith

theorem sum_map_mul_div (l : List ℚ) (p T : ℚ) :
    (l.map (fun f => p * f / T)).sum = p * l.sum / T := by
  induction l with
  | nil => simp
  | cons a t ih =>
      simp only [List.map_cons, List.sum_cons, ih, List.sum_cons]
      ring

theorem sum_map_le_sum_map {α : Type} (l : List α) (f g : α → ℚ)
    (h : ∀ a ∈ l, f a ≤ g a) : (l.map f).sum ≤ (l.map g).sum := by
  induction l with
  | nil => simp
  | cons a t ih =>
      simp only [List.map_cons, List.sum_cons]
      exact add_le_add (h a (List.mem_cons_self a t))
        (ih (fun b hb => h b (List.mem_cons_of_mem a hb)))

theorem sum_map_sub_le_length_mul {α : Type} (l : List α) (f g : α → ℚ) (c : ℚ)
    (h : ∀ a ∈ l, g a - f a ≤ c) :
    (l.map g).sum - (l.map f).sum ≤ (l.length : ℚ) * c := by
  induction l with
  | nil => simp
  | cons a t ih =>
      simp only [List.map_cons, List.sum_cons, List.length_cons]
      have h1 := h a (List.mem_cons_self a t)
      have h2 := ih (fun b hb => h b (List.mem_cons_of_mem a hb))
      push_cast
      linarith

/-! ## Claim theorems -/

/-- C1: for non-negative factors with a positive sum and any exact pool, the
distribution returns one reward per factor, in order, equal to
`pool * factor / sum(factors)` truncated toward zero at 10 decimal digits
(trailing-zero stripping is the identity on the rational value); and this one
algorithm is the one used by challenge, competition and stake reward
computation. -/
theorem c1_distribute_formula (factors : List ℚ) (pool : ℚ)
    ( _hf : ∀ f ∈ factors, 0 ≤ f) (hpos : 0 < factors.sum) :
    Scorer1.distribute factors pool =
      .ok (factors.map (fun f => quantizeDown10 (pool * f / factors.sum))) ∧
    (∀ (i : ℕ) (f : ℚ), factors[i]? = some f →
      (factors.map (fun f => quantizeDown10 (pool * f / factors.sum)))[i]? =
        some (quantizeDown10 (pool * f / factors.sum))) ∧
    (∀ stakes p, Scorer1.compute_stake_rewards stakes p = Scorer1.distribute stakes p) ∧
    (∀ scores p, Scorer1.compute_challenge_rewards scores p =
      Scorer1.distribute (Scorer1.challenge_factors scores) p) ∧
    (∀ scores p, 2 ≤ (scores.filterMap id : List ℚ).length →
      Scorer1.compute_competition_rewards scores p =
        Scorer1.distribute (Scorer1.competition_factors scores) p) := by
  refine ⟨?_, ?_, ?_, ?_, ?_⟩
  · simp [Scorer1.distribute, hpos.ne']
  · intro i f hif
    simp [List.getElem?_map, hif]
  · intro stakes p
    rfl
  · intro scores p
    rfl
  · intro scores p hn
    unfold Scorer1.compute_competition_rewards
    simp only []
    rw [if_neg (by omega), if_neg (by omega)]

/-- C2: for non-negative factors with a positive sum and a non-negative pool,
every distributed reward is non-negative, the rewards sum to at most the pool,
and the shortfall is at most `count(factors) * 10^-10`. -/
theorem c2_distribution_conservation (factors : List ℚ) (pool : ℚ)
    (hf : ∀ f ∈ factors, 0 ≤ f) (hpos : 0 < factors.sum) (hpool : 0 ≤ pool) :
    ∀ rewards, Scorer1.distribute factors pool = .ok rewards →
      (∀ r ∈ rewards, 0 ≤ r) ∧ rewards.sum ≤ pool ∧
      pool - rewards.sum ≤ (factors.length : ℚ) * (1 / 10 ^ 10) := by
  intro rewards hok
  have hrw : rewards = factors.map (fun f => quantizeDown10 (pool * f / factors.sum)) := by
    rw [Scorer1.distribute, if_neg (by simp [hpos.ne'])] at hok
    exact (Except.ok.injEq _ _).mp hok.symm
  subst hrw
  have harg : ∀ f ∈ factors, 0 ≤ pool * f / factors.sum := fun f hmem =>
    div_nonneg (mul_nonneg hpool (hf f hmem)) hpos.le
  refine ⟨?_, ?_, ?_⟩
  · intro r hr
    obtain ⟨f, hmem, rfl⟩ := List.mem_map.mp hr
    exact quantizeDown10_nonneg (harg f hmem)
  · have h1 : (factors.map (fun f => quantizeDown10 (pool * f / factors.sum))).sum ≤
        (factors.map (fun f => pool * f / factors.sum)).sum :=
      sum_map_le_sum_map _ _ _ (fun f hmem => quantizeDown10_le (harg f hmem))
    have h2 : (factors.map (fun f => pool * f / factors.sum)).sum = pool := by
      rw [sum_map_mul_div, mul_div_assoc, div_self hpos.ne', mul_one]
    linarith
  · have h2 : (factors.map (fun f => pool * f / factors.sum)).sum = pool := by
      rw [sum_map_mul_div, mul_div_assoc, div_self hpos.ne', mul_one]
    have h3 := sum_map_sub_le_length_mul factors
      (fun f => quantizeDown10 (pool * f / factors.sum))
      (fun f => pool * f / factors.sum) (1 / 10 ^ 10)
      (fun f hmem => sub_quantizeDown10_le (harg f hmem))
    rw [h2] at h3
    exact h3

theorem countP_lt_add_countP_eq_le_length (x : ℚ) (l : List ℚ) :
    l.countP (fun y => decide (y < x)) + l.countP (fun y => decide (y = x)) ≤
      l.length := by
  induction l with
  | nil => simp
  | cons a t ih =>
      simp only [List.countP_cons, List.length_cons]
      by_cases h1 : a < x
      · have h2 : ¬a = x := fun h => absurd (h ▸ h1) (lt_irrefl x)
        simp [h1, h2]
        omega
      · by_cases h2 : a = x <;> simp [h1, h2] <;> omega

theorem avgRank_le_length {x : ℚ} {l : List ℚ} (hx : x ∈ l) :
    1 ≤ avgRank x l ∧ avgRank x l ≤ (l.length : ℚ) := by
  have hceq : 1 ≤ l.countP (fun y => decide (y = x)) :=
    List.countP_pos_iff.mpr ⟨x, hx, by simp⟩
  have hsum := countP_lt_add_countP_eq_le_length x l
  unfold avgRank
  constructor
  · have h1 : (1 : ℚ) ≤ (l.countP (fun y => decide (y = x)) : ℚ) := by
      exact_mod_cast hceq
    have h0 : (0 : ℚ) ≤ (l.countP (fun y => decide (y < x)) : ℚ) := by positivity
    linarith
  · have h1 : (1 : ℚ) ≤ (l.countP (fun y => decide (y = x)) : ℚ) := by
      exact_mod_cast hceq
    have h2 : (l.countP (fun y => decide (y < x)) : ℚ) +
        (l.countP (fun y => decide (y = x)) : ℚ) ≤ (l.length : ℚ) := by
      exact_mod_cast hsum
    linarith

theorem countP_isNone_add_filterMap_length (l : List (Option ℚ)) :
    l.countP (fun s => s.isNone) + (l.filterMap id : List ℚ).length = l.length := by
  induction l with
  | nil => simp
  | cons a t ih =>
      cases a <;> simp [List.countP_cons] <;> omega

theorem last_window_length_le (l : List (Option ℚ)) :
    (Scorer1.last_window l).length ≤ 4 := by
  unfold Scorer1.last_window
  rw [List.length_drop]
  omega

theorem num_skips_eq_four_iff (l : List (Option ℚ)) :
    Scorer1.num_skips l = 4 ↔ Scorer1.window_defined l = [] := by
  have h1 := countP_isNone_add_filterMap_length (Scorer1.last_window l)
  have h2 := last_window_length_le l
  unfold Scorer1.num_skips Scorer1.window_defined
  rw [← List.length_eq_zero]
  omega

theorem mem_window_defined_mem_filterMap {x : ℚ} {l : List (Option ℚ)}
    (hx : x ∈ Scorer1.window_defined l) : x ∈ (l.filterMap id : List ℚ) := by
  unfold Scorer1.window_defined Scorer1.last_window at hx
  obtain ⟨o, ho, hox⟩ := List.mem_filterMap.mp hx
  exact List.mem_filterMap.mpr ⟨o, List.mem_of_mem_drop ho, hox⟩

theorem sum_le_length_of_forall_le_one {l : List ℚ} (h : ∀ x ∈ l, x ≤ 1) :
    l.sum ≤ (l.length : ℚ) := by
  induction l with
  | nil => simp
  | cons a t ih =>
      simp only [List.sum_cons, List.length_cons]
      have h1 := h a (List.mem_cons_self a t)
      have h2 := ih (fun b hb => h b (List.mem_cons_of_mem a hb))
      push_cast
      linarith

/-- C3: challenge scores: empty result when no error is defined; otherwise one
score per participant, missing errors yielding missing scores, and each
defined participant with tie-averaged rank `r` (among `n ≥ 2` ranked) scoring
`(n - r) / (n - 1)`. -/
theorem c3_challenge_scores (errors : List (Option ℚ)) :
    ((errors.filterMap id : List ℚ).length = 0 →
      Scorer1.compute_challenge_scores errors = []) ∧
    ((errors.filterMap id : List ℚ).length ≠ 0 →
      (Scorer1.compute_challenge_scores errors).length = errors.length) ∧
    (∀ i : ℕ, (errors.filterMap id : List ℚ).length ≠ 0 → errors[i]? = some none →
      (Scorer1.compute_challenge_scores errors)[i]? = some none) ∧
    (∀ (i : ℕ) (x : ℚ), 2 ≤ (errors.filterMap id : List ℚ).length →
      errors[i]? = some (some x) →
      (Scorer1.compute_challenge_scores errors)[i]? =
        some (some ((((errors.filterMap id : List ℚ).length : ℚ) -
          avgRank x (errors.filterMap id)) /
          (((errors.filterMap id : List ℚ).length : ℚ) - 1)))) := by
  refine ⟨?_, ?_, ?_, ?_⟩
  · intro h
    simp [Scorer1.compute_challenge_scores, h]
  · intro h
    simp [Scorer1.compute_challenge_scores, h]
  · intro i h hi
    simp [Scorer1.compute_challenge_scores, h, List.getElem?_map, hi]
  · intro i x hn hi
    have h0 : (errors.filterMap id : List ℚ).length ≠ 0 := by omega
    have h1 : (errors.filterMap id : List ℚ).length ≠ 1 := by omega
    simp [Scorer1.compute_challenge_scores, h0, h1, List.getElem?_map, hi]

/-- C4: the two division-by-zero conditions are handled by no explicit branch
of the code.  With exactly one defined error the score formula divides by
`n - 1 = 0` in float arithmetic (`0.0 / 0.0 = NaN`), so the lone ranked
participant comes back missing; and a distribution over factors with zero sum
hits the `decimal` module's division-by-zero trap, aborting the call. -/
theorem c4_division_by_zero (e : ℚ) (factors : List ℚ) (pool : ℚ)
    (hne : factors ≠ []) (hzero : factors.sum = 0) :
    Scorer1.compute_challenge_scores [some e] = [none] ∧
    Scorer1.distribute factors pool = .error .arithmeticError := by
  constructor
  · simp [Scorer1.compute_challenge_scores]
  · simp [Scorer1.distribute, hzero, hne]

/-- C7: competition-reward factors: with `n ≥ 2` defined competition scores,
the rewards are the distribution of `max(normalized_rank - 0.5, 0)` over the
pool, where a defined score of tie-averaged rank `r` gets normalized rank
`(r - 1) / (n - 1)` and a missing score gets normalized rank 0, hence
factor 0. -/
theorem c7_competition_reward_factors (scores : List (Option ℚ)) (pool : ℚ)
    (hn : 2 ≤ (scores.filterMap id : List ℚ).length) :
    Scorer1.compute_competition_rewards scores pool =
      Scorer1.distribute (Scorer1.competition_factors scores) pool ∧
    (∀ i : ℕ, scores[i]? = some none →
      (Scorer1.competition_factors scores)[i]? = some 0) ∧
    (∀ (i : ℕ) (x : ℚ), scores[i]? = some (some x) →
      (Scorer1.competition_factors scores)[i]? =
        some (max ((avgRank x (scores.filterMap id) - 1) /
          (((scores.filterMap id : List ℚ).length : ℚ) - 1) - 1 / 2) 0)) := by
  refine ⟨?_, ?_, ?_⟩
  · unfold Scorer1.compute_competition_rewards
    rw [if_neg (by omega), if_neg (by omega)]
  · intro i hi
    simp [Scorer1.competition_factors, Scorer1.competition_norm_ranks,
      List.getElem?_map, hi]
  · intro i x hi
    simp [Scorer1.competition_factors, Scorer1.competition_norm_ranks,
      List.getElem?_map, hi]

/-- C5: the competition score is computed over the trailing window of the
last 4 challenge scores; `num_skips` is the shortfall of the window plus its
missing entries; if all 4 slots are skips the score is missing; otherwise it
is `max(mean - (0.1 * 2 * popStddev + 0.1 * num_skips / 3), 0)` where mean
and population standard deviation range over the non-missing window
entries. -/
theorem c5_competition_score (history : List (Option ℚ)) :
    Scorer1.last_window history = history.drop (history.length - 4) ∧
    Scorer1.num_skips history =
      (4 - (Scorer1.last_window history).length) +
        (Scorer1.last_window history).countP (fun s => s.isNone) ∧
    (Scorer1.num_skips history = 4 →
      Scorer1.compute_competition_score history = none) ∧
    (∀ w : List ℚ, w = (Scorer1.last_window history).filterMap id →
      Scorer1.num_skips history ≠ 4 →
      Scorer1.compute_competition_score history =
        some (max (((w.sum / (w.length : ℚ) : ℚ) : ℝ) -
          ((1 / 10) * 2 * Real.sqrt
              (((w.map (fun x => (x - w.sum / (w.length : ℚ)) ^ 2)).sum /
                (w.length : ℚ) : ℚ)) +
            (1 / 10) * (Scorer1.num_skips history : ℝ) / 3)) 0)) := by
  refine ⟨rfl, rfl, ?_, ?_⟩
  · intro h
    simp [Scorer1.compute_competition_score, h]
  · intro w hw h4
    subst hw
    unfold Scorer1.compute_competition_score
    rw [if_neg h4]
    norm_num [Scorer1.nanmean, Scorer1.nanvariance, Scorer1.window_defined,
      Scorer1.STDDEV_PENALTY, Scorer1.SKIP_PENALTY]

/-- C6: every non-missing challenge score lies in `[0, 1]`; and on a history
whose defined entries lie in `[0, 1]` (as challenge scores do), a non-missing
competition score lies in `[0, 1]`, the floor at 0 applying even when the
mean minus the penalties is negative. -/
theorem c6_score_bounds :
    (∀ (errors : List (Option ℚ)) (i : ℕ) (s : ℚ),
      (Scorer1.compute_challenge_scores errors)[i]? = some (some s) →
      0 ≤ s ∧ s ≤ 1) ∧
    (∀ (history : List (Option ℚ)) (v : ℝ),
      (∀ x ∈ (history.filterMap id : List ℚ), 0 ≤ x ∧ x ≤ 1) →
      Scorer1.compute_competition_score history = some v → 0 ≤ v ∧ v ≤ 1) := by
  constructor
  · intro errors i s hs
    unfold Scorer1.compute_challenge_scores at hs
    by_cases h0 : (errors.filterMap id : List ℚ).length = 0
    · simp [h0] at hs
    · rw [if_neg h0, List.getElem?_map] at hs
      cases he : errors[i]? with
      | none => rw [he] at hs; simp at hs
      | some e =>
          rw [he] at hs
          cases e with
          | none => simp at hs
          | some x =>
              by_cases h1 : (errors.filterMap id : List ℚ).length = 1
              · simp [h1] at hs
              · simp only [Option.map_some', h1, if_false, Option.some.injEq] at hs
                have hx : x ∈ (errors.filterMap id : List ℚ) :=
                  List.mem_filterMap.mpr ⟨some x, List.getElem?_mem he, rfl⟩
                obtain ⟨hr1, hr2⟩ := avgRank_le_length hx
                have hn2 : (2 : ℚ) ≤ ((errors.filterMap id : List ℚ).length : ℚ) := by
                  have : 2 ≤ (errors.filterMap id : List ℚ).length := by omega
                  exact_mod_cast this
                rw [← hs]
                constructor
                · exact div_nonneg (by linarith) (by linarith)
                · rw [div_le_one (by linarith)]
                  linarith
  · intro history v hbound hv
    unfold Scorer1.compute_competition_score at hv
    by_cases h4 : Scorer1.num_skips history = 4
    · simp [h4] at hv
    · rw [if_neg h4] at hv
      have hveq : v = _ := (Option.some.injEq _ _).mp hv |>.symm
      have hne : Scorer1.window_defined history ≠ [] := by
        intro hnil
        exact h4 ((num_skips_eq_four_iff history).mpr hnil)
      have hlen : 0 < (Scorer1.window_defined history).length :=
        List.length_pos.mpr hne
      have hmean : Scorer1.nanmean (Scorer1.window_defined history) ≤ 1 := by
        unfold Scorer1.nanmean
        rw [div_le_one (by exact_mod_cast hlen)]
        exact sum_le_length_of_forall_le_one
          (fun x hx => (hbound x (mem_window_defined_mem_filterMap hx)).2)
      have hmeanR : ((Scorer1.nanmean (Scorer1.window_defined history) : ℚ) : ℝ) ≤ 1 := by
        exact_mod_cast hmean
      have hpen : (0 : ℝ) ≤ ((Scorer1.STDDEV_PENALTY : ℚ) : ℝ) * 2 *
          Real.sqrt ((Scorer1.nanvariance (Scorer1.window_defined history) : ℚ) : ℝ) +
          ((Scorer1.SKIP_PENALTY : ℚ) : ℝ) * (Scorer1.num_skips history : ℝ) / 3 := by
        have h1 : ((Scorer1.STDDEV_PENALTY : ℚ) : ℝ) = 1 / 10 := by
          norm_num [Scorer1.STDDEV_PENALTY]
        have h2 : ((Scorer1.SKIP_PENALTY : ℚ) : ℝ) = 1 / 10 := by
          norm_num [Scorer1.SKIP_PENALTY]
        rw [h1, h2]
        positivity
      rw [hveq]
      constructor
      · exact le_max_right _ _
      · exact max_le (by linarith) (by norm_num)

/-- C10: when every competition score is missing, the pool is not distributed
at all: the result is a list of zero rewards of the input's length, and the
zero-factor-sum division is never reached. -/
theorem c10_all_missing_competition_rewards (scores : List (Option ℚ)) (pool : ℚ)
    (h : ∀ s ∈ scores, s = none) :
    Scorer1.compute_competition_rewards scores pool =
      .ok (List.replicate scores.length 0) := by
  have hfm : (scores.filterMap id : List ℚ) = [] := by
    rw [List.filterMap_eq_nil_iff]
    intro s hs
    rw [h s hs]
    rfl
  unfold Scorer1.compute_competition_rewards
  simp [hfm]

/-- C8: for a duplicate-free required-asset list, `validate_prediction` is
true exactly when the submitted asset keys form the same set as the required
assets, each required asset is submitted exactly once (a count condition, not
mere set equality), and no submitted value is NaN.  The embedding is a pure
function, reflecting that the source is a side-effect-free predicate. -/
theorem c8_validate_prediction (assets : List String)
    (predictions : List (String × Option ℚ)) (hnd : assets.Nodup) :
    validate_prediction assets predictions = true ↔
      ((predictions.map Prod.fst).toFinset = assets.toFinset ∧
       (∀ a ∈ assets, (predictions.map Prod.fst).count a = 1) ∧
       (∀ p ∈ predictions, p.2.isSome = true)) := by
  have key : validate_prediction assets predictions = true ↔
      (assets.toFinset = (predictions.map Prod.fst).toFinset ∧
       assets.length = predictions.length ∧
       ∀ p ∈ predictions, p.2.isSome = true) := by
    unfold validate_prediction
    by_cases h1 : assets.toFinset = (predictions.map Prod.fst).toFinset
    · by_cases h2 : assets.length = predictions.length
      · simp [h1, h2, List.all_eq_true]
      · simp [h1, h2]
    · simp [h1]
  rw [key]
  constructor
  · rintro ⟨h1, h2, h3⟩
    refine ⟨h1.symm, ?_, h3⟩
    have hcard : (predictions.map Prod.fst).toFinset.card = assets.length := by
      rw [← h1, List.toFinset_card_of_nodup hnd]
    have hnodup : (predictions.map Prod.fst).Nodup := by
      rw [← List.dedup_eq_self]
      apply List.Sublist.eq_of_length (List.dedup_sublist _)
      rw [← List.card_toFinset, hcard, List.length_map, h2]
    intro a ha
    have hmem : a ∈ predictions.map Prod.fst := by
      have hmem' : a ∈ assets.toFinset := List.mem_toFinset.mpr ha
      rw [h1] at hmem'
      exact List.mem_toFinset.mp hmem'
    exact List.count_eq_one_of_mem hnodup hmem
  · rintro ⟨h1, h2, h3⟩
    refine ⟨h1.symm, ?_, h3⟩
    have hnodup : (predictions.map Prod.fst).Nodup := by
      rw [List.nodup_iff_count_eq_one]
      intro a ha
      have hmem : a ∈ assets := by
        have hmem' : a ∈ (predictions.map Prod.fst).toFinset :=
          List.mem_toFinset.mpr ha
        rw [h1] at hmem'
        exact List.mem_toFinset.mp hmem'
      exact h2 a hmem
    have hlen : (predictions.map Prod.fst).length = assets.length := by
      rw [← List.toFinset_card_of_nodup hnodup, h1, List.toFinset_card_of_nodup hnd]
    rw [← hlen, List.length_map]

/-- C9: the version resolver fails with the lookup ("invalid version") error
on every negative challenge number and returns the single implemented version
on every non-negative one; every facade operation therefore fails with that
same lookup error, and no partial result, on a negative challenge number. -/
theorem c9_version_resolver (challenge_number : ℤ)
    (predictions assets_values stakes : List ℚ)
    (errors history scores : List (Option ℚ)) (pool : ℚ)
    (num_predictors num_stakers : ℕ) :
    (challenge_number < 0 →
      Scorer.get challenge_number = .error .lookup ∧
      compute_challenge_error challenge_number predictions assets_values =
        .error .lookup ∧
      compute_challenge_scores challenge_number errors = .error .lookup ∧
      compute_competition_score challenge_number history = .error .lookup ∧
      compute_challenge_rewards challenge_number scores pool = .error .lookup ∧
      compute_competition_rewards challenge_number scores pool = .error .lookup ∧
      compute_stake_rewards challenge_number stakes pool = .error .lookup ∧
      compute_challenge_pool challenge_number num_predictors = .error .lookup ∧
      compute_competition_pool challenge_number num_predictors = .error .lookup ∧
      compute_stake_pool challenge_number num_stakers = .error .lookup ∧
      compute_pool_surplus challenge_number num_predictors num_stakers =
        .error .lookup) ∧
    (0 ≤ challenge_number → Scorer.get challenge_number = .ok .scorer1) := by
  constructor
  · intro hneg
    have hget : Scorer.get challenge_number = .error .lookup := by
      simp [Scorer.get, hneg]
    refine ⟨hget, ?_, ?_, ?_, ?_, ?_, ?_, ?_, ?_, ?_, ?_⟩ <;>
      simp [compute_challenge_error, compute_challenge_scores,
        compute_competition_score, compute_challenge_rewards,
        compute_competition_rewards, compute_stake_rewards,
        compute_challenge_pool, compute_competition_pool, compute_stake_pool,
        compute_pool_surplus, hget]
  · intro hpos
    simp [Scorer.get, not_lt.mpr hpos]

/-! ## Witnesses -/

/-- Witness for C1 at stakes `[100, 200, 700]`, pool `1000`. -/
theorem c1_distribute_formula_witness :
    (∀ f ∈ ([100, 200, 700] : List ℚ), 0 ≤ f) ∧
    (0 : ℚ) < ([100, 200, 700] : List ℚ).sum ∧
    Scorer1.distribute [100, 200, 700] 1000 =
      .ok (([100, 200, 700] : List ℚ).map
        (fun f => quantizeDown10 (1000 * f / ([100, 200, 700] : List ℚ).sum))) := by
  have h1 : ∀ f ∈ ([100, 200, 700] : List ℚ), 0 ≤ f := by norm_num
  have h2 : (0 : ℚ) < ([100, 200, 700] : List ℚ).sum := by norm_num
  exact ⟨h1, h2, (c1_distribute_formula [100, 200, 700] 1000 h1 h2).1⟩

/-- Witness for C2 at stakes `[100, 200, 700]`, pool `1000`, whose rewards
are exactly `[100, 200, 700]`. -/
theorem c2_distribution_conservation_witness :
    (∀ f ∈ ([100, 200, 700] : List ℚ), 0 ≤ f) ∧
    (0 : ℚ) < ([100, 200, 700] : List ℚ).sum ∧ (0 : ℚ) ≤ 1000 ∧
    ((∀ r ∈ ([100, 200, 700] : List ℚ), 0 ≤ r) ∧
      ([100, 200, 700] : List ℚ).sum ≤ 1000 ∧
      1000 - ([100, 200, 700] : List ℚ).sum ≤
        (([100, 200, 700] : List ℚ).length : ℚ) * (1 / 10 ^ 10)) := by
  have h1 : ∀ f ∈ ([100, 200, 700] : List ℚ), 0 ≤ f := by norm_num
  have h2 : (0 : ℚ) < ([100, 200, 700] : List ℚ).sum := by norm_num
  have h3 : (0 : ℚ) ≤ 1000 := by norm_num
  have hok : Scorer1.distribute [100, 200, 700] 1000 = .ok [100, 200, 700] := by
    simp [Scorer1.distribute, quantizeDown10]
    norm_num
  exact ⟨h1, h2, h3,
    c2_distribution_conservation [100, 200, 700] 1000 h1 h2 h3 [100, 200, 700] hok⟩

/-- Witness for C3 at errors `[1, 2, 3]`: the first participant has rank 1
and score 1. -/
theorem c3_challenge_scores_witness :
    2 ≤ (([some 1, some 2, some 3] : List (Option ℚ)).filterMap id).length ∧
    ([some 1, some 2, some 3] : List (Option ℚ))[0]? = some (some 1) ∧
    (Scorer1.compute_challenge_scores [some 1, some 2, some 3])[0]? =
      some (some (
        (((([some 1, some 2, some 3] : List (Option ℚ)).filterMap id).length : ℚ) -
            avgRank 1 (([some 1, some 2, some 3] : List (Option ℚ)).filterMap id)) /
        (((([some 1, some 2, some 3] : List (Option ℚ)).filterMap id).length : ℚ) - 1))) := by
  have h1 : 2 ≤ (([some 1, some 2, some 3] :
      List (Option ℚ)).filterMap id).length := by simp
  have h2 : ([some 1, some 2, some 3] : List (Option ℚ))[0]? = some (some 1) := rfl
  exact ⟨h1, h2, (c3_challenge_scores [some 1, some 2, some 3]).2.2.2 0 1 h1 h2⟩

/-- Witness for C4: one defined error `1` gives a missing score; factors
`[0]` with pool `7` abort the distribution. -/
theorem c4_division_by_zero_witness :
    ([0] : List ℚ) ≠ [] ∧ ([0] : List ℚ).sum = 0 ∧
    Scorer1.compute_challenge_scores [some 1] = [none] ∧
    Scorer1.distribute [0] 7 = .error .arithmeticError := by
  have h1 : ([0] : List ℚ) ≠ [] := by simp
  have h2 : ([0] : List ℚ).sum = 0 := by simp
  exact ⟨h1, h2, (c4_division_by_zero 1 [0] 7 h1 h2).1,
    (c4_division_by_zero 1 [0] 7 h1 h2).2⟩

/-- Witness for C5 at the constant history `[0.8, 0.8, 0.8, 0.8]`: no skips,
zero deviation, competition score `0.8`. -/
theorem c5_competition_score_witness :
    Scorer1.num_skips
      [some (4/5 : ℚ), some (4/5 : ℚ), some (4/5 : ℚ), some (4/5 : ℚ)] ≠ 4 ∧
    Scorer1.compute_competition_score
      [some (4/5 : ℚ), some (4/5 : ℚ), some (4/5 : ℚ), some (4/5 : ℚ)] =
      some ((4 : ℝ)/5) := by
  have h4 : Scorer1.num_skips
      [some (4/5 : ℚ), some (4/5 : ℚ), some (4/5 : ℚ), some (4/5 : ℚ)] ≠ 4 := by
    simp [Scorer1.num_skips, Scorer1.last_window]
  refine ⟨h4, ?_⟩
  rw [(c5_competition_score
    [some (4/5 : ℚ), some (4/5 : ℚ), some (4/5 : ℚ), some (4/5 : ℚ)]).2.2.2 _ rfl h4]
  have hw : (Scorer1.last_window
      [some (4/5 : ℚ), some (4/5 : ℚ), some (4/5 : ℚ), some (4/5 : ℚ)]).filterMap id =
      ([4/5, 4/5, 4/5, 4/5] : List ℚ) := by
    simp [Scorer1.last_window]
  rw [hw]
  have hskip : Scorer1.num_skips
      [some (4/5 : ℚ), some (4/5 : ℚ), some (4/5 : ℚ), some (4/5 : ℚ)] = 0 := by
    simp [Scorer1.num_skips, Scorer1.last_window]
  rw [hskip]
  have e1 : (([4/5, 4/5, 4/5, 4/5] : List ℚ).sum /
      ((([4/5, 4/5, 4/5, 4/5] : List ℚ).length : ℚ))) = 4/5 := by norm_num
  rw [e1]
  have e2 : ((([4/5, 4/5, 4/5, 4/5] : List ℚ).map (fun x => (x - 4/5) ^ 2)).sum /
      ((([4/5, 4/5, 4/5, 4/5] : List ℚ).length : ℚ))) = 0 := by norm_num
  rw [e2]
  push_cast
  rw [Real.sqrt_zero]
  rw [max_eq_left (by norm_num)]
  norm_num

/-- Witness for C6: errors `[1, 2]` give the best participant score `1`; the
history `[0.8]` (three skips) gives competition score `0.7`. -/
theorem c6_score_bounds_witness :
    (Scorer1.compute_challenge_scores [some 1, some 2])[0]? = some (some 1) ∧
    ((0 : ℚ) ≤ 1 ∧ (1 : ℚ) ≤ 1) ∧
    (∀ x ∈ ([some (4/5 : ℚ)] : List (Option ℚ)).filterMap id, 0 ≤ x ∧ x ≤ 1) ∧
    Scorer1.compute_competition_score [some (4/5 : ℚ)] = some ((7 : ℝ)/10) ∧
    ((0 : ℝ) ≤ 7/10 ∧ (7 : ℝ)/10 ≤ 1) := by
  have h1 : (Scorer1.compute_challenge_scores [some 1, some 2])[0]? =
      some (some 1) := by
    simp [Scorer1.compute_challenge_scores, avgRank, List.countP, List.countP.go]
    norm_num
  have hb : ∀ x ∈ ([some (4/5 : ℚ)] : List (Option ℚ)).filterMap id,
      0 ≤ x ∧ x ≤ 1 := by norm_num
  have h2 : Scorer1.compute_competition_score [some (4/5 : ℚ)] =
      some ((7 : ℝ)/10) := by
    have h4 : Scorer1.num_skips [some (4/5 : ℚ)] = 3 := by
      simp [Scorer1.num_skips, Scorer1.last_window]
    have hwd : Scorer1.window_defined [some (4/5 : ℚ)] = [4/5] := by
      simp [Scorer1.window_defined, Scorer1.last_window]
    have e1 : Scorer1.nanmean ([4/5] : List ℚ) = 4/5 := by
      norm_num [Scorer1.nanmean]
    have e2 : Scorer1.nanvariance ([4/5] : List ℚ) = 0 := by
      norm_num [Scorer1.nanvariance, Scorer1.nanmean]
    unfold Scorer1.compute_competition_score
    rw [h4, hwd, e1, e2]
    push_cast [Scorer1.STDDEV_PENALTY, Scorer1.SKIP_PENALTY]
    rw [Real.sqrt_zero]
    rw [max_eq_left (by norm_num)]
    norm_num
  exact ⟨h1, (c6_score_bounds.1 [some 1, some 2] 0 1 h1),
    hb, h2, c6_score_bounds.2 [some (4/5 : ℚ)] ((7 : ℝ)/10) hb h2⟩

/-- Witness for C7 at competition scores `[1, 2, NaN]`, pool `10`. -/
theorem c7_competition_reward_factors_witness :
    2 ≤ ((([some 1, some 2, none] : List (Option ℚ)).filterMap id : List ℚ)).length ∧
    Scorer1.compute_competition_rewards [some 1, some 2, none] 10 =
      Scorer1.distribute (Scorer1.competition_factors [some 1, some 2, none]) 10 := by
  have h : 2 ≤ ((([some 1, some 2, none] :
      List (Option ℚ)).filterMap id : List ℚ)).length := by simp
  exact ⟨h, (c7_competition_reward_factors [some 1, some 2, none] 10 h).1⟩

/-- Witness for C8: the spec's scenario, assets `["A", "B"]` with predictions
`[("A", 1), ("B", 2)]`, is valid. -/
theorem c8_validate_prediction_witness :
    (["A", "B"] : List String).Nodup ∧
    validate_prediction ["A", "B"] [("A", some 1), ("B", some 2)] = true := by
  have h : (["A", "B"] : List String).Nodup := by simp
  refine ⟨h, (c8_validate_prediction ["A", "B"] [("A", some 1), ("B", some 2)] h).mpr
    ⟨?_, ?_, ?_⟩⟩
  · simp
  · intro a ha
    simp only [List.mem_cons, List.not_mem_nil, or_false] at ha
    rcases ha with rfl | rfl <;> simp [List.count_cons]
  · intro p hp
    simp only [List.mem_cons, List.not_mem_nil, or_false] at hp
    rcases hp with rfl | rfl <;> simp

/-- Witness for C9 at challenge numbers `-1` and `0`. -/
theorem c9_version_resolver_witness :
    ((-1 : ℤ) < 0 ∧ Scorer.get (-1) = .error .lookup) ∧
    ((0 : ℤ) ≤ 0 ∧ Scorer.get 0 = .ok .scorer1) := by
  refine ⟨⟨by norm_num, ?_⟩, ⟨le_refl 0, ?_⟩⟩
  · exact ((c9_version_resolver (-1) [] [] [] [] [] [] 0 0 0).1 (by norm_num)).1
  · exact (c9_version_resolver 0 [] [] [] [] [] [] 0 0 0).2 (le_refl 0)

/-- Witness for C10 at the all-missing score list `[NaN, NaN]`, pool `5`. -/
theorem c10_all_missing_competition_rewards_witness :
    (∀ s ∈ ([none, none] : List (Option ℚ)), s = none) ∧
    Scorer1.compute_competition_rewards [none, none] 5 =
      .ok (List.replicate ([none, none] : List (Option ℚ)).length 0) := by
  have h : ∀ s ∈ ([none, none] : List (Option ℚ)), s = none := by simp
  exact ⟨h, c10_all_missing_competition_rewards [none, none] 5 h⟩

end Scoring
